import Mathlib

/-!
Verification of the FlowPitch presentation runner (`src/app.js`) against its
natural-language specification.  The script exists in two versions in the
source file: a naive one and a hardened one; both are embedded below where
the claims need them.  JavaScript numbers appearing in integer positions are
modelled as `Int`/`Nat`; the floating-point arithmetic of the luminance
computation is modelled over the exact reals.
-/

namespace FlowPitch

/-! ### Slide body rendering (`slides.forEach` body loop, both versions)

A body item is either a string or some other JSON value (non-strings are
skipped by `if (typeof par !== "string") return`).  The rendered content
container is modelled as a list of blocks: `ul` nodes (holding their list
items' text) and `p` paragraph nodes.
-/

inductive BodyItem where
  | str (s : String)
  | nonStr
deriving DecidableEq

inductive Block where
  | ul (items : List String)
  | p (s : String)
deriving DecidableEq

/-- Models `par.startsWith("• ") || par.startsWith("- ")`: first character is the
bullet or dash marker and the second is a space. -/
def isBullet (s : String) : Bool :=
  match s.data with
  | c₁ :: c₂ :: _ => (c₁ = '•' || c₁ = '-') && c₂ = ' '
  | _ => false

/-- Models `par.replace(/^•\s|-\s/, "")` on a string of the bullet branch: the
leftmost match of the regex is the two-character marker prefix, so exactly
one marker-plus-space is stripped. -/
def stripBullet (s : String) : String :=
  if isBullet s then String.mk (s.data.drop 2) else s

/-- Does the content container already hold a `ul` node?  (The naive version
asks this via `contentWrap.querySelector('ul')`; the hardened version keeps
the equivalent fact in its `ul` local variable, which is `null` exactly
until the first list is created.) -/
def hasUl (blocks : List Block) : Bool :=
  blocks.any fun b => match b with | .ul _ => true | .p _ => false

/-- Append a list item to the first `ul` node of the container; if there is
none, create a fresh `ul` holding the item and append it at the end.  Both
versions of the source behave like this: the naive one looks the `ul` up
with `querySelector` (first match in document order) and the hardened one
reuses the single `ul` it ever created, which is that same first one. -/
def addLi : List Block → String → List Block
  | [], s => [Block.ul [s]]
  | Block.ul items :: rest, s => Block.ul (items ++ [s]) :: rest
  | Block.p t :: rest, s => Block.p t :: addLi rest s

/-- One iteration of the `s.body.forEach` loop. -/
def bodyStep (blocks : List Block) (par : BodyItem) : List Block :=
  match par with
  | .nonStr => blocks
  | .str s =>
      if isBullet s then addLi blocks (stripBullet s)
      else blocks ++ [Block.p s]

/-- The rendered content container produced from a slide's `body` array. -/
def renderBody (body : List BodyItem) : List Block :=
  body.foldl bodyStep []

/-- The stripped text of every bullet item of the body, in order. -/
def bulletsOf (body : List BodyItem) : List String :=
  body.filterMap fun it =>
    match it with
    | .str s => if isBullet s then some (stripBullet s) else none
    | .nonStr => none

/-- The paragraph blocks of the body (non-bullet strings), in order. -/
def parasOf (body : List BodyItem) : List Block :=
  body.filterMap fun it =>
    match it with
    | .str s => if isBullet s then none else some (Block.p s)
    | .nonStr => none

/-- Closed-form description of what the code actually renders: paragraphs
before the first bullet in order, then a single `ul` holding the stripped
text of every bullet of the whole body, then the remaining paragraphs in
order.  A bullet run interrupted by a paragraph does not open a new list:
its items are appended to the first list. -/
def renderBodyModel : List BodyItem → List Block
  | [] => []
  | .nonStr :: rest => renderBodyModel rest
  | .str s :: rest =>
      if isBullet s then
        Block.ul (stripBullet s :: bulletsOf rest) :: parasOf rest
      else
        Block.p s :: renderBodyModel rest

/-! ### Navigation (`goto` / `updateUI`, naive and hardened versions)

`current` and the argument of `goto` are JavaScript numbers holding integer
values; they are modelled as `Int`.  `slideEls.length` is the slide count
`len : Nat`.  `updateUI` toggles the `visible` class on every slide element
(`visibleFlags`), writes the counter text and sets the progress-fill width;
in the hardened version counter and progress elements are optional.
-/

/-- The `visible` class toggles performed by `updateUI`:
`slideEls.forEach((el, i) => el.classList.toggle("visible", i === current))`. -/
def visibleFlags (len : Nat) (current : Int) : List Bool :=
  (List.range len).map fun (i : Nat) => ((i : Int) == current)

/-- Hardened `goto` (lines 380-388): clamps `n` into bounds, stores it in
`current` and calls `updateUI`; returns early on an empty deck. -/
def goto (len : Nat) (current n : Int) : Int :=
  if len = 0 then current
  else
    let n₁ := if n < 0 then 0 else n
    let n₂ := if n₁ ≥ (len : Int) then (len : Int) - 1 else n₁
    n₂

/-- Naive `goto` (lines 97-102): same clamping, no empty-deck guard. -/
def gotoNaive (len : Nat) (n : Int) : Int :=
  let n₁ := if n < 0 then 0 else n
  let n₂ := if n₁ ≥ (len : Int) then (len : Int) - 1 else n₁
  n₂

/-- Observable result of the hardened `updateUI` (lines 370-378): the
counter element and the progress element may be absent (`none`). -/
structure UIState where
  visible : List Bool
  counterText : Option String
  progressWidthPct : Option Int
deriving DecidableEq

/-- Hardened `updateUI`: `counter.textContent` becomes
`` `${current + 1} / ${slideEls.length}` `` and the progress width becomes
`Math.round(((current + 1) / slideEls.length) * 100)` percent, each only
when the element exists. -/
def updateUI (len : Nat) (current : Int) (hasCounter hasProgress : Bool) : UIState :=
  { visible := visibleFlags len current
  , counterText :=
      if hasCounter then some (toString (current + 1) ++ " / " ++ toString len)
      else none
  , progressWidthPct :=
      if hasProgress then some (round ((((current : Int) + 1 : ℚ) / (len : ℚ)) * 100))
      else none }

/-- Observable result of the naive `updateUI` (lines 90-95): counter and
progress are unconditionally written. -/
structure UIStateNaive where
  visible : List Bool
  counterText : String
  progressPct : Int
deriving DecidableEq

/-- Naive `updateUI`: `(current+1) + ' / ' + slideEls.length` and
`Math.round(((current+1)/slideEls.length)*100)`. -/
def updateUINaive (len : Nat) (current : Int) : UIStateNaive :=
  { visible := visibleFlags len current
  , counterText := toString (current + 1) ++ " / " ++ toString len
  , progressPct := round ((((current : Int) + 1 : ℚ) / (len : ℚ)) * 100) }

/-- A sequence of navigation transitions applied via the hardened `goto`. -/
def navFold (len : Nat) (ns : List Int) (init : Int) : Int :=
  ns.foldl (goto len) init

/-! ### Content schema, validation and slide construction (hardened, lines 264-362) -/

/-- One slide record of `content.json`.  `none` models an absent field
(for `body`, also a non-array value). -/
structure Slide where
  title : Option String
  subtitle : Option String
  note : Option String
  body : Option (List BodyItem)
deriving DecidableEq

/-- The parsed `content.json` document. -/
structure Content where
  title : Option String
  theme : Option String
  slides : Option (List Slide)
deriving DecidableEq

/-- JavaScript `a || d` on an optional string: absent and the empty string
are both falsy. -/
def jsOr (o : Option String) (d : String) : String :=
  match o with
  | none => d
  | some t => if t = "" then d else t

/-- JavaScript truthiness test used on `s.subtitle` / `s.note`: the node is
rendered only for a present, non-empty string. -/
def jsPresent (o : Option String) : Option String :=
  match o with
  | none => none
  | some t => if t = "" then none else some t

/-- The section node built per slide (lines 301-362): `data-index`
attribute, `h1` text (`s.title || ""`), optional `h2` and note, and the
content container. -/
structure RenderedSlide where
  index : Nat
  title : String
  subtitle : Option String
  note : Option String
  content : List Block
deriving DecidableEq

/-- One iteration of the hardened `slides.forEach` renderer. -/
def renderSlide (idx : Nat) (s : Slide) : RenderedSlide :=
  { index := idx
  , title := s.title.getD ("")
  , subtitle := jsPresent s.subtitle
  , note := jsPresent s.note
  , content := renderBody (s.body.getD []) }

/-- Outcome of the hardened initialization path after `content.json` has
been fetched and parsed (lines 264-268, 300-362, 420): `fatal` is the
`showFatal` report if any; `stageSlides` is the content of the `#stage`
container (`none` = left in its pre-load state, never cleared); `navIndex`
is the navigation state set by the final `goto(0)` (`none` = never
initialized). -/
structure InitOutcome where
  fatal : Option String
  stageSlides : Option (List RenderedSlide)
  navIndex : Option Int
deriving DecidableEq

/-- Models `const slides = Array.isArray(content.slides) ? content.slides : [];
if (!slides.length) { showFatal(...); return; }` followed by the render
loop and `goto(0)`. -/
def runInit (c : Content) : InitOutcome :=
  let slides := c.slides.getD []
  if slides.isEmpty then
    { fatal := some ("content.json loaded, but contains 0 slides. Expected: \x7b slides: [ ... ] \x7d")
    , stageSlides := none
    , navIndex := none }
  else
    let rendered := slides.enum.map fun p => renderSlide p.1 p.2
    { fatal := none
    , stageSlides := some rendered
    , navIndex := some (goto rendered.length 0 0) }

/-! ### Theme resolution (hardened `themeMap`, lines 272-279) -/

structure Theme where
  accent : String
  accent2 : String
  textOnAccent : String
deriving DecidableEq

def pinkTheme : Theme := ⟨"#ff6ba6", "#ff9ccf", "#ffffff"⟩

def purpleTheme : Theme := ⟨"#7c5cff", "#b39bff", "#ffffff"⟩

def blueTheme : Theme := ⟨"#2f7bff", "#79b2ff", "#ffffff"⟩

def blackTheme : Theme := ⟨"#1f1f23", "#3a3a44", "#ffffff"⟩

/-- Result of the JavaScript bracket lookup `themeMap[tKey]` on the plain
object literal of lines 272-277.  Such a lookup is not own-keys-only: it
consults the prototype chain, so beside the four own theme records it can
also produce an inherited `Object.prototype` member.  Among the inherited
property names exactly two are all-lowercase and therefore reachable
through the lowercased `tKey`: `"constructor"` (the `Object` function) and
`"__proto__"` (the prototype object itself); both are truthy but are not
theme records.  Every other key yields `undefined`. -/
inductive Lookup where
  | theme (t : Theme)
  | protoMember
  | absent
deriving DecidableEq

/-- The `themeMap` object literal as the JavaScript lookup behaves: own
keys first, then the two lowercase-reachable inherited
`Object.prototype` members, then `undefined`. -/
def themeMap (k : String) : Lookup :=
  if k = "pink" then Lookup.theme pinkTheme
  else if k = "purple" then Lookup.theme purpleTheme
  else if k = "blue" then Lookup.theme blueTheme
  else if k = "black" then Lookup.theme blackTheme
  else if k = "constructor" ∨ k = "__proto__" then Lookup.protoMember
  else Lookup.absent

/-- Models `String.prototype.toLowerCase` (the theme keys are ASCII). -/
def lowerStr (s : String) : String :=
  String.mk (s.data.map Char.toLower)

/-- The value bound to `theme`: either one of the theme records, or a
truthy inherited `Object.prototype` member that carries no `accent`
fields. -/
inductive ThemeVal where
  | themeRec (t : Theme)
  | protoObj
deriving DecidableEq

/-- Models `const tKey = String(content.theme || "pink").toLowerCase();
const theme = themeMap[tKey] || themeMap.pink;` — the `||` falls back to
pink only when the lookup is falsy (`undefined`); a truthy inherited
member is kept. -/
def resolveTheme (t : Option String) : ThemeVal :=
  match themeMap (lowerStr (jsOr t ("pink"))) with
  | Lookup.theme th => ThemeVal.themeRec th
  | Lookup.protoMember => ThemeVal.protoObj
  | Lookup.absent => ThemeVal.themeRec pinkTheme

/-- Models lines 281-295 applied to the resolved value: the CSS variables
are set from `theme.accent` / `theme.accent2` and `lum(theme.accent)` is
computed.  On a prototype-chain member `theme.accent` is `undefined`, so
`lum` throws a TypeError at `hex.replace("#", "")`; the exception
propagates to the top-level catch, which reports the fatal
"Unexpected error in app.js." and aborts the whole load. -/
def applyTheme : ThemeVal → Except String Theme
  | ThemeVal.themeRec th => Except.ok th
  | ThemeVal.protoObj => Except.error ("Unexpected error in app.js.")

/-! ### Accent luminance and contrast class (lines 285-297)

The source computes with IEEE doubles; the model uses exact rationals for
the channel values and exact reals for the gamma curve, on which the two
claimed endpoint values are exact.
-/

/-- Value of one hexadecimal digit as `parseInt(..., 16)` reads it (the
static theme table only ever supplies valid digits). -/
def hexDigitVal (c : Char) : Nat :=
  if '0' ≤ c ∧ c ≤ '9' then c.toNat - '0'.toNat
  else if 'a' ≤ c ∧ c ≤ 'f' then c.toNat - 'a'.toNat + 10
  else if 'A' ≤ c ∧ c ≤ 'F' then c.toNat - 'A'.toNat + 10
  else 0

/-- Models `parseInt(h.substring(2k, 2k+2), 16)` on a two-character slice. -/
def hexPair (c₁ c₂ : Char) : Nat := 16 * hexDigitVal c₁ + hexDigitVal c₂

/-- Models `hexToRgb` (lines 285-288): `hex.replace("#", "")` strips the first
`#`, then the three channel bytes are parsed from consecutive digit
pairs. -/
def hexToRgb (hex : String) : Nat × Nat × Nat :=
  match (if hex.data.head? = some ('#') then hex.data.drop 1 else hex.data) with
  | c₁ :: c₂ :: c₃ :: c₄ :: c₅ :: c₆ :: _ =>
      (hexPair c₁ c₂, hexPair c₃ c₄, hexPair c₅ c₆)
  | _ => (0, 0, 0)

/-- Per-channel sRGB linearization:
`v <= 0.03928 ? v / 12.92 : Math.pow((v + 0.055) / 1.055, 2.4)`. -/
noncomputable def linChannel (v : ℚ) : ℝ :=
  if v ≤ 0.03928 then (v : ℝ) / 12.92
  else (((v : ℝ) + 0.055) / 1.055) ^ (2.4 : ℝ)

/-- Models `lum` (lines 289-294): channels divided by 255, linearized, then the
weighted sum `0.2126 r + 0.7152 g + 0.0722 b`. -/
noncomputable def lum (hex : String) : ℝ :=
  0.2126 * linChannel (((hexToRgb hex).1 : ℚ) / 255)
    + 0.7152 * linChannel (((hexToRgb hex).2.1 : ℚ) / 255)
    + 0.0722 * linChannel (((hexToRgb hex).2.2 : ℚ) / 255)

/-- Models `document.body.classList.toggle("light-text", aLum > 0.5)`. -/
def lightText (hex : String) : Prop := lum hex > 0.5

/-- Models `document.body.classList.toggle("dark-text", aLum <= 0.5)`. -/
def darkText (hex : String) : Prop := lum hex ≤ 0.5

/-! ### PDF export pipeline (`exportToPdf`, lines 429-502)

A document is the list of its pages, a page the list of the slide indices
whose rasterized images were placed on it; `new jsPDF(...)` starts with one
empty page.  The settle delays, the DOM clone and the rasterization itself
carry no document state and are omitted; what remains is the sequencing:
per iteration a cancellation check, one committed image, and a fresh page
while slides remain.
-/

/-- Models `pdf.addImage(...)`: places the image of slide `img` on the current
(last) page. -/
def pdfAddImage : List (List Nat) → Nat → List (List Nat)
  | [], img => [[img]]
  | [pg], img => [pg ++ [img]]
  | pg :: pg₂ :: rest, img => pg :: pdfAddImage (pg₂ :: rest) img

/-- Models `pdf.addPage()`: appends a blank page. -/
def pdfAddPage (doc : List (List Nat)) : List (List Nat) := doc ++ [[]]

/-- Is the cooperative cancellation flag set when the check at the top of
iteration `i` runs?  `cancelAt = some k` models a cancel request first
observable at iteration `k` (the flag stays set once set); `none` models no
cancellation during the export. -/
def cancelSeen (cancelAt : Option Nat) (i : Nat) : Bool :=
  match cancelAt with
  | none => false
  | some k => k ≤ i

/-- The export loop (lines 446-483), at slide `i` with `rem = len - i`
iterations left: `if (cancelRequested) break; goto(i); ...;
pdf.addImage(...); if (i < slideEls.length - 1) pdf.addPage();`. -/
def exportGo (len : Nat) (cancelAt : Option Nat) : Nat → Nat → List (List Nat) → List (List Nat)
  | 0, _, doc => doc
  | rem + 1, i, doc =>
      if cancelSeen cancelAt i then doc
      else
        let d₁ := pdfAddImage doc i
        let d₂ := if i < len - 1 then pdfAddPage d₁ else d₁
        exportGo len cancelAt rem (i + 1) d₂

/-- Result of one `exportToPdf` run: the assembled document and the saved
filename (`none` when the save step was skipped). -/
structure ExportOutcome where
  doc : List (List Nat)
  saved : Option String
deriving DecidableEq

/-- Models `exportToPdf` (lines 429-495): run the loop over all slides starting
from a fresh one-page document, then
`if (!cancelRequested) pdf.save((content.title || "presentation") + ".pdf")`. -/
def exportToPdf (len : Nat) (title : Option String) (cancelAt : Option Nat) : ExportOutcome :=
  { doc := exportGo len cancelAt len 0 [[]]
  , saved :=
      if cancelAt.isSome then none
      else some (jsOr title ("presentation") ++ ".pdf") }

/-- The page-level state touched by the cancel button: the flag, the
overlay visibility, the `exporting` body class, and whether a
rasterization call is currently in flight. -/
structure PageState where
  cancelRequested : Bool
  overlayHidden : Bool
  exporting : Bool
  rasterInFlight : Bool
deriving DecidableEq

/-- The `cancelExport` click handler (lines 498-502): sets the flag, hides
the overlay and drops the `exporting` class; nothing else — in particular
an in-flight rasterization is left untouched. -/
def cancelExportClick (s : PageState) : PageState :=
  { s with cancelRequested := true, overlayHidden := true, exporting := false }

end FlowPitch

namespace FlowPitch

theorem addLi_append_ulFree (pre : List Block) (x : List Block) (s : String)
    (hpre : hasUl pre = false) : addLi (pre ++ x) s = pre ++ addLi x s := by
  induction pre with
  | nil => rfl
  | cons b rest ih =>
      cases b with
      | ul items => simp [hasUl] at hpre
      | p t =>
          have h' : hasUl rest = false := by
            simp [hasUl] at hpre ⊢
            exact hpre
          simp [addLi, ih h']

theorem bodyStep_append_ulFree (pre : List Block) (x : List Block) (it : BodyItem)
    (hpre : hasUl pre = false) : bodyStep (pre ++ x) it = pre ++ bodyStep x it := by
  cases it with
  | nonStr => rfl
  | str s =>
      by_cases hb : isBullet s
      · simp [bodyStep, hb, addLi_append_ulFree pre x _ hpre]
      · simp [bodyStep, hb]

theorem foldl_bodyStep_append_ulFree (items : List BodyItem) (pre : List Block)
    (x : List Block) (hpre : hasUl pre = false) :
    items.foldl bodyStep (pre ++ x) = pre ++ items.foldl bodyStep x := by
  induction items generalizing x with
  | nil => rfl
  | cons it rest ih =>
      simp only [List.foldl_cons, bodyStep_append_ulFree pre x it hpre]
      exact ih (bodyStep x it)

theorem foldl_bodyStep_ul_head (items : List BodyItem) (bs : List String)
    (post : List Block) :
    items.foldl bodyStep (Block.ul bs :: post)
      = Block.ul (bs ++ bulletsOf items) :: (post ++ parasOf items) := by
  induction items generalizing bs post with
  | nil => simp [bulletsOf, parasOf]
  | cons it rest ih =>
      cases it with
      | nonStr => simpa [bulletsOf, parasOf] using ih bs post
      | str s =>
          by_cases hb : isBullet s
          · have hstep : bodyStep (Block.ul bs :: post) (.str s)
                = Block.ul (bs ++ [stripBullet s]) :: post := by
              simp [bodyStep, hb, addLi]
            rw [List.foldl_cons, hstep, ih]
            simp [bulletsOf, parasOf, hb]
          · have hstep : bodyStep (Block.ul bs :: post) (.str s)
                = Block.ul bs :: (post ++ [Block.p s]) := by
              simp [bodyStep, hb]
            rw [List.foldl_cons, hstep, ih]
            simp [bulletsOf, parasOf, hb]

theorem renderBody_eq_model (body : List BodyItem) :
    renderBody body = renderBodyModel body := by
  induction body with
  | nil => rfl
  | cons it rest ih =>
      cases it with
      | nonStr => simpa [renderBody, renderBodyModel] using ih
      | str s =>
          by_cases hb : isBullet s
          · simp only [renderBody, List.foldl_cons, bodyStep, hb, if_pos,
              addLi, renderBodyModel]
            simpa using foldl_bodyStep_ul_head rest [stripBullet s] []
          · simp only [renderBody, List.foldl_cons, bodyStep, hb,
              renderBodyModel, if_neg]
            have h0 : hasUl [Block.p s] = false := by simp [hasUl]
            calc rest.foldl bodyStep ([] ++ [Block.p s] ++ [])
                = rest.foldl bodyStep ([Block.p s] ++ []) := by simp
              _ = [Block.p s] ++ rest.foldl bodyStep [] :=
                  foldl_bodyStep_append_ulFree rest [Block.p s] [] h0
              _ = Block.p s :: renderBody rest := by simp [renderBody]
              _ = Block.p s :: renderBodyModel rest := by rw [ih]

theorem goto_eq_clamp (N : Nat) (c n : Int) (h : 1 ≤ N) :
    goto N c n = max 0 (min n ((N : Int) - 1)) := by
  have hN : ¬ N = 0 := by omega
  simp only [goto, hN, if_false]
  have h1 : (1 : Int) ≤ (N : Int) := by exact_mod_cast h
  split_ifs <;> omega

theorem gotoNaive_eq_clamp (N : Nat) (n : Int) (h : 1 ≤ N) :
    gotoNaive N n = max 0 (min n ((N : Int) - 1)) := by
  have h1 : (1 : Int) ≤ (N : Int) := by exact_mod_cast h
  simp only [gotoNaive]
  split_ifs <;> omega

theorem goto_mem (N : Nat) (c n : Int) (h : 1 ≤ N) :
    0 ≤ goto N c n ∧ goto N c n < (N : Int) := by
  rw [goto_eq_clamp N c n h]
  have h1 : (1 : Int) ≤ (N : Int) := by exact_mod_cast h
  omega

theorem navFold_mem (N : Nat) (h : 1 ≤ N) (ns : List Int) (c : Int)
    (h0 : 0 ≤ c) (h1 : c < (N : Int)) :
    0 ≤ navFold N ns c ∧ navFold N ns c < (N : Int) := by
  induction ns generalizing c with
  | nil => exact ⟨h0, h1⟩
  | cons n rest ih =>
      simp only [navFold, List.foldl_cons]
      exact ih (goto N c n) (goto_mem N c n h).1 (goto_mem N c n h).2

theorem visibleFlags_count_eq_zero (len : Nat) (s : Int)
    (h : ∀ i : Nat, i < len → (i : Int) ≠ s) :
    (visibleFlags len s).count true = 0 := by
  rw [List.count_eq_zero]
  simp only [visibleFlags, List.mem_map, List.mem_range, not_exists]
  intro i
  rintro ⟨hi, hEq⟩
  exact h i hi (by simpa using hEq)

theorem visibleFlags_count_eq_one (len : Nat) (s : Int)
    (h0 : 0 ≤ s) (h1 : s < (len : Int)) :
    (visibleFlags len s).count true = 1 := by
  induction len with
  | zero => simp at h1; omega
  | succ m ih =>
      have hsplit : visibleFlags (m + 1) s
          = visibleFlags m s ++ [((m : Int) == s)] := by
        rw [visibleFlags, visibleFlags, List.range_succ, List.map_append]
        rfl
      rw [hsplit, List.count_append]
      by_cases hs : s = (m : Int)
      · have hz : (visibleFlags m s).count true = 0 :=
          visibleFlags_count_eq_zero m s (fun i hi => by
            have : (i : Int) < (m : Int) := by exact_mod_cast hi
            omega)
        rw [hz]
        simp [hs]
      · have hlt : s < (m : Int) := by
          have : s < (m : Int) + 1 := by push_cast at h1 ⊢; omega
          omega
        rw [ih hlt]
        have hb : ((m : Int) == s) = false := by
          simp only [beq_eq_false_iff_ne, ne_eq]
          omega
        simp [hb]

theorem visibleFlags_head_init (len : Nat) (h : 1 ≤ len) :
    (visibleFlags len 0).head? = some true := by
  obtain ⟨m, rfl⟩ : ∃ m, len = m + 1 := ⟨len - 1, by omega⟩
  rw [visibleFlags, List.range_succ_eq_map]
  simp

/-- Claim C1: For a deck with `N ≥ 1` slides, `goto(n)` for any integer `n`
sets the current index to `max(0, min(n, N-1))`; the computation is total
(never throws), the resulting index is in bounds, and the visible state is
never left unset: exactly one slide element carries the `visible` class
afterwards. -/
theorem goto_clamps_total_and_visible (N : Nat) (c n : Int) (h : 1 ≤ N) :
    goto N c n = max 0 (min n ((N : Int) - 1)) ∧
    0 ≤ goto N c n ∧ goto N c n < (N : Int) ∧
    (visibleFlags N (goto N c n)).count true = 1 :=
  ⟨goto_eq_clamp N c n h, (goto_mem N c n h).1, (goto_mem N c n h).2,
    visibleFlags_count_eq_one N _ (goto_mem N c n h).1 (goto_mem N c n h).2⟩

theorem goto_clamps_total_and_visible_witness :
    1 ≤ 3 ∧
    (goto 3 0 7 = max 0 (min 7 ((3 : Int) - 1)) ∧
      0 ≤ goto 3 0 7 ∧ goto 3 0 7 < (3 : Int) ∧
      (visibleFlags 3 (goto 3 0 7)).count true = 1) :=
  ⟨by norm_num, goto_clamps_total_and_visible 3 0 7 (by norm_num)⟩

/-- Claim C3: For any deck with `N ≥ 1` slides: initialization (`current = 0`
followed by `goto(0)`) puts the index at 0 and marks exactly one slide
visible, namely the first; after any sequence of navigation transitions the
index stays in `[0, N)` and exactly one slide element is visible. -/
theorem init_and_nav_invariant (N : Nat) (ns : List Int) (h : 1 ≤ N) :
    goto N 0 0 = 0 ∧
    (visibleFlags N (goto N 0 0)).head? = some true ∧
    (visibleFlags N (goto N 0 0)).count true = 1 ∧
    0 ≤ navFold N ns (goto N 0 0) ∧ navFold N ns (goto N 0 0) < (N : Int) ∧
    (visibleFlags N (navFold N ns (goto N 0 0))).count true = 1 := by
  have h1 : (1 : Int) ≤ (N : Int) := by exact_mod_cast h
  have hinit : goto N 0 0 = 0 := by rw [goto_eq_clamp N 0 0 h]; omega
  have hmem := navFold_mem N h ns (goto N 0 0) (by omega) (by omega)
  refine ⟨hinit, ?_, ?_, hmem.1, hmem.2, ?_⟩
  · rw [hinit]; exact visibleFlags_head_init N h
  · rw [hinit]; exact visibleFlags_count_eq_one N 0 le_rfl h1
  · exact visibleFlags_count_eq_one N _ hmem.1 hmem.2

theorem init_and_nav_invariant_witness :
    1 ≤ 3 ∧
    (goto 3 0 0 = 0 ∧
      (visibleFlags 3 (goto 3 0 0)).head? = some true ∧
      (visibleFlags 3 (goto 3 0 0)).count true = 1 ∧
      0 ≤ navFold 3 [5, -2, 1] (goto 3 0 0) ∧
      navFold 3 [5, -2, 1] (goto 3 0 0) < (3 : Int) ∧
      (visibleFlags 3 (navFold 3 [5, -2, 1] (goto 3 0 0))).count true = 1) :=
  ⟨by norm_num, init_and_nav_invariant 3 [5, -2, 1] (by norm_num)⟩

/-- Claim C10: For every deck with `N ≥ 1` slides and counter and progress
elements present, the naive and the hardened navigation agree: `goto`
produces the same new index from the same argument, and `updateUI` produces
the same visibility flags, the same counter text and the same progress
width at any index. -/
theorem naive_hardened_nav_equiv (N : Nat) (c n s : Int) (h : 1 ≤ N) :
    gotoNaive N n = goto N c n ∧
    (updateUI N s true true).visible = (updateUINaive N s).visible ∧
    (updateUI N s true true).counterText = some ((updateUINaive N s).counterText) ∧
    (updateUI N s true true).progressWidthPct = some ((updateUINaive N s).progressPct) := by
  refine ⟨?_, rfl, rfl, rfl⟩
  rw [goto_eq_clamp N c n h, gotoNaive_eq_clamp N n h]

theorem round_mono_q {x y : ℚ} (h : x ≤ y) : round x ≤ round y := by
  rw [round_eq, round_eq]
  exact Int.floor_le_floor (by linarith)

theorem round_hundred : round (100 : ℚ) = 100 := by
  rw [show (100 : ℚ) = ((100 : ℤ) : ℚ) by norm_num, round_intCast]

theorem progress_arg_eq (N : Nat) (s : Int) :
    (((s : Int) + 1 : ℚ) / (N : ℚ)) * 100 = (100 * ((s : ℚ) + 1)) / (N : ℚ) := by
  ring

theorem progressPct_bounds (N : Nat) (s : Int) (hN : 1 ≤ N)
    (h0 : 0 ≤ s) (h1 : s < (N : Int)) :
    round ((100 : ℚ) / (N : ℚ)) ≤ round ((100 * ((s : ℚ) + 1)) / (N : ℚ)) ∧
    round ((100 * ((s : ℚ) + 1)) / (N : ℚ)) ≤ 100 := by
  have hNq : (0 : ℚ) < (N : ℚ) := by exact_mod_cast hN
  have hs0 : (0 : ℚ) ≤ (s : ℚ) := by exact_mod_cast h0
  have hs1 : (s : ℚ) + 1 ≤ (N : ℚ) := by
    have hx : s + 1 ≤ (N : Int) := by omega
    exact_mod_cast hx
  constructor
  · apply round_mono_q
    rw [div_le_div_iff₀ hNq hNq]
    nlinarith
  · calc round ((100 * ((s : ℚ) + 1)) / (N : ℚ)) ≤ round (100 : ℚ) := by
          apply round_mono_q
          rw [div_le_iff₀ hNq]
          nlinarith
      _ = 100 := round_hundred

/-- Claim C4: After every navigation transition (`updateUI` run at the index
produced by `goto`): when the counter element exists its text equals
`"{current+1} / {N}"`, and when the progress element exists its width
percentage equals `round(100*(current+1)/N)`, which lies in
`[round(100/N), 100]`. -/
theorem nav_counter_and_progress (N : Nat) (c n : Int) (h : 1 ≤ N) :
    (updateUI N (goto N c n) true true).counterText
      = some (toString (goto N c n + 1) ++ " / " ++ toString N) ∧
    (updateUI N (goto N c n) true true).progressWidthPct
      = some (round ((100 * ((goto N c n : ℚ) + 1)) / (N : ℚ))) ∧
    round ((100 : ℚ) / (N : ℚ))
      ≤ round ((100 * ((goto N c n : ℚ) + 1)) / (N : ℚ)) ∧
    round ((100 * ((goto N c n : ℚ) + 1)) / (N : ℚ)) ≤ 100 := by
  obtain ⟨h0, h1⟩ := goto_mem N c n h
  obtain ⟨hlo, hhi⟩ := progressPct_bounds N (goto N c n) h h0 h1
  refine ⟨rfl, ?_, hlo, hhi⟩
  simp only [updateUI, if_pos]
  rw [progress_arg_eq]

theorem nav_counter_and_progress_witness :
    1 ≤ 4 ∧
    ((updateUI 4 (goto 4 0 2) true true).counterText
        = some (toString (goto 4 0 2 + 1) ++ " / " ++ toString 4) ∧
      (updateUI 4 (goto 4 0 2) true true).progressWidthPct
        = some (round ((100 * ((goto 4 0 2 : ℚ) + 1)) / (4 : ℚ))) ∧
      round ((100 : ℚ) / (4 : ℚ))
        ≤ round ((100 * ((goto 4 0 2 : ℚ) + 1)) / (4 : ℚ)) ∧
      round ((100 * ((goto 4 0 2 : ℚ) + 1)) / (4 : ℚ)) ≤ 100) :=
  ⟨by norm_num, nav_counter_and_progress 4 0 2 (by norm_num)⟩

theorem naive_hardened_nav_equiv_witness :
    1 ≤ 3 ∧
    (gotoNaive 3 5 = goto 3 1 5 ∧
      (updateUI 3 2 true true).visible = (updateUINaive 3 2).visible ∧
      (updateUI 3 2 true true).counterText = some ((updateUINaive 3 2).counterText) ∧
      (updateUI 3 2 true true).progressWidthPct = some ((updateUINaive 3 2).progressPct)) :=
  ⟨by norm_num, naive_hardened_nav_equiv 3 1 5 2 (by norm_num)⟩

/-- Claim C2, counterexample: On the body `["• a", "x", "• b"]` the claim
as stated predicts a second, separate list after the interrupting
paragraph (`[ul ["a"], p "x", ul ["b"]]`); the code instead appends the
second bullet run to the first list and renders `[ul ["a", "b"], p "x"]`. -/
theorem second_bullet_run_not_separate :
    renderBody [.str ("• a"), .str ("x"), .str ("• b")]
        = [Block.ul ["a", "b"], Block.p ("x")] ∧
    renderBody [.str ("• a"), .str ("x"), .str ("• b")]
        ≠ [Block.ul ["a"], Block.p ("x"), Block.ul ["b"]] := by
  exact ⟨by decide, by decide⟩

/-- Claim C2, amended: Consecutive bullet lines are coalesced into one list,
and paragraph order is preserved; but a bullet run interrupted by a
non-bullet item does not get its own new list: every later bullet item is
appended to the single first list, which sits at the position of the first
bullet item, with the paragraphs before and after it in their original
relative order. -/
theorem renderBody_single_first_list (body : List BodyItem) :
    renderBody body = renderBodyModel body :=
  renderBody_eq_model body

/-- Claim C5: If the fetched content parses but its slides list is absent or
empty, the load is reported as a fatal user-visible error, initialization
halts (navigation is never initialized), and no slide elements are created
in the render container. -/
theorem empty_slides_fatal (c : Content)
    (h : c.slides = none ∨ c.slides = some []) :
    ((runInit c).fatal).isSome = true ∧
    (runInit c).stageSlides = none ∧
    (runInit c).navIndex = none := by
  rcases h with h | h <;> simp [runInit, h]

theorem empty_slides_fatal_witness :
    ((Content.mk none none none).slides = none ∨
      (Content.mk none none none).slides = some []) ∧
    (((runInit (Content.mk none none none)).fatal).isSome = true ∧
      (runInit (Content.mk none none none)).stageSlides = none ∧
      (runInit (Content.mk none none none)).navIndex = none) :=
  ⟨Or.inl rfl, empty_slides_fatal _ (Or.inl rfl)⟩

theorem lowerStr_empty_iff {s : String} : lowerStr s = "" ↔ s = "" := by
  constructor
  · intro h
    have hd : s.data.map Char.toLower = ([] : List Char) := congrArg String.data h
    have hnil : s.data = [] := List.map_eq_nil_iff.mp hd
    cases s with
    | mk data =>
        have hd' : data = [] := hnil
        rw [hd']
  · rintro rfl
    rfl

/-- Claim C9, counterexample: the unknown theme name "constructor" does
not resolve to the pink default.  The bracket lookup finds the inherited
truthy `Object.prototype.constructor`, so the `|| themeMap.pink` fallback
is skipped; `theme.accent` is then `undefined` and `lum(undefined)` throws
at `hex.replace`, aborting the whole load with the top-level fatal report.
The same happens for "__proto__". -/
theorem theme_proto_key_crashes :
    resolveTheme (some ("constructor")) ≠ ThemeVal.themeRec pinkTheme ∧
    applyTheme (resolveTheme (some ("constructor")))
      = Except.error ("Unexpected error in app.js.") ∧
    applyTheme (resolveTheme (some ("__proto__")))
      = Except.error ("Unexpected error in app.js.") :=
  ⟨by decide, rfl, rfl⟩

/-- Claim C9, amended: theme resolution is case-insensitive (the result
depends only on the lowercased name) and uses the fixed default name
"pink" when the theme field is absent; an unknown theme name resolves to
exactly the default pink theme — except for the two prototype-chain names
"constructor" and "__proto__" (case-insensitively), for which the lookup
returns a truthy inherited `Object.prototype` member instead of falling
back, and the load then fails with the top-level fatal report rather than
resolving to any theme. -/
theorem theme_resolution_amended (s₁ s₂ s : String)
    (hcase : lowerStr s₁ = lowerStr s₂)
    (hunk : lowerStr s ≠ "pink" ∧ lowerStr s ≠ "purple" ∧
      lowerStr s ≠ "blue" ∧ lowerStr s ≠ "black")
    (hproto : lowerStr s ≠ "constructor" ∧ lowerStr s ≠ "__proto__") :
    resolveTheme (some s₁) = resolveTheme (some s₂) ∧
    resolveTheme none = ThemeVal.themeRec pinkTheme ∧
    resolveTheme (some s) = ThemeVal.themeRec pinkTheme ∧
    (∀ u : String, (lowerStr u = "constructor" ∨ lowerStr u = "__proto__") →
      applyTheme (resolveTheme (some u))
        = Except.error ("Unexpected error in app.js.")) := by
  obtain ⟨hp, hpu, hb, hbl⟩ := hunk
  obtain ⟨hc, hpr⟩ := hproto
  refine ⟨?_, rfl, ?_, ?_⟩
  · by_cases h1 : s₁ = ""
    · have h2 : s₂ = "" := by
        apply lowerStr_empty_iff.mp
        rw [← hcase, h1]
        rfl
      rw [h1, h2]
    · by_cases h2 : s₂ = ""
      · exfalso
        apply h1
        apply lowerStr_empty_iff.mp
        rw [hcase, h2]
        rfl
      · simp only [resolveTheme, jsOr]
        rw [if_neg h1, if_neg h2, hcase]
  · have hor : ¬ (lowerStr s = "constructor" ∨ lowerStr s = "__proto__") := by
      rintro (h | h)
      · exact hc h
      · exact hpr h
    by_cases h0 : s = ""
    · rw [h0]
      rfl
    · simp only [resolveTheme, jsOr]
      rw [if_neg h0]
      simp only [themeMap, if_neg hp, if_neg hpu, if_neg hb, if_neg hbl,
        if_neg hor]
  · intro u hu
    have hne : u ≠ "" := by
      intro h0
      rw [h0] at hu
      rcases hu with h | h
      · exact absurd h (by decide)
      · exact absurd h (by decide)
    have hju : jsOr (some u) ("pink") = u := by
      simp [jsOr, hne]
    rcases hu with h | h
    · simp only [resolveTheme, hju, h]
      rfl
    · simp only [resolveTheme, hju, h]
      rfl

theorem linChannel_zero : linChannel 0 = 0 := by
  rw [linChannel, if_pos (by norm_num)]
  norm_num

theorem linChannel_one : linChannel 1 = 1 := by
  have h1 : (((1 : ℚ) : ℝ) + 0.055) / 1.055 = 1 := by norm_num
  rw [linChannel, if_neg (by norm_num), h1, Real.one_rpow]

/-- Claim C8: The theme luminance function linearizes each channel `v = k/255`
by `v/12.92` below the 0.03928 threshold and by `((v+0.055)/1.055)^2.4` at
or above it (no channel byte ever lands exactly on the threshold, so "at or
above" coincides with the code's strict complement of `v <= 0.03928`), and
returns `0.2126 R + 0.7152 G + 0.0722 B`; for accent `"#ffffff"` the
luminance is exactly 1 and the light-text class is applied, for
`"#000000"` it is exactly 0 and the dark-text class is applied, and for
every accent exactly one of the two classes is set. -/
theorem lum_endpoints_and_contrast_classes :
    (∀ k : Nat, (k : ℚ) / 255 < 0.03928 →
        linChannel ((k : ℚ) / 255) = ((((k : ℚ) / 255 : ℚ) : ℝ)) / 12.92) ∧
    (∀ k : Nat, 0.03928 ≤ (k : ℚ) / 255 →
        linChannel ((k : ℚ) / 255)
          = (((((k : ℚ) / 255 : ℚ) : ℝ) + 0.055) / 1.055) ^ (2.4 : ℝ)) ∧
    lum ("#ffffff") = 1 ∧ lum ("#000000") = 0 ∧
    lightText ("#ffffff") ∧ darkText ("#000000") ∧
    (∀ hex : String, (lightText hex ∧ ¬ darkText hex) ∨
      (darkText hex ∧ ¬ lightText hex)) := by
  have hwhite : lum ("#ffffff") = 1 := by
    have hrgb : hexToRgb ("#ffffff") = (255, 255, 255) := by decide
    have h255 : ((255 : ℕ) : ℚ) / 255 = 1 := by norm_num
    simp only [lum, hrgb, h255, linChannel_one]
    norm_num
  have hblack : lum ("#000000") = 0 := by
    have hrgb : hexToRgb ("#000000") = (0, 0, 0) := by decide
    have h0 : ((0 : ℕ) : ℚ) / 255 = 0 := by norm_num
    simp only [lum, hrgb, h0, linChannel_zero]
    norm_num
  refine ⟨?_, ?_, hwhite, hblack, ?_, ?_, ?_⟩
  · intro k h
    rw [linChannel, if_pos (le_of_lt h)]
  · intro k h
    have hne : (k : ℚ) / 255 ≠ 0.03928 := by
      intro hEq
      rw [div_eq_iff (by norm_num : (255 : ℚ) ≠ 0)] at hEq
      have h2 : (k : ℚ) * 10000 = 100164 := by rw [hEq]; norm_num
      have h3 : k * 10000 = 100164 := by exact_mod_cast h2
      omega
    rw [linChannel, if_neg (not_le.mpr (lt_of_le_of_ne h (Ne.symm hne)))]
  · show lum ("#ffffff") > 0.5
    rw [hwhite]
    norm_num
  · show lum ("#000000") ≤ 0.5
    rw [hblack]
    norm_num
  · intro hex
    rcases lt_or_le (0.5 : ℝ) (lum hex) with h | h
    · exact Or.inl ⟨h, not_le.mpr h⟩
    · exact Or.inr ⟨h, not_lt.mpr h⟩

theorem lum_endpoints_and_contrast_classes_witness :
    ((0 : ℚ) / 255 < 0.03928) ∧
      linChannel ((0 : ℚ) / 255) = ((((0 : ℚ) / 255 : ℚ) : ℝ)) / 12.92 :=
  ⟨by norm_num,
    (lum_endpoints_and_contrast_classes.1 0 (by norm_num))⟩

theorem theme_resolution_amended_witness :
    lowerStr ("PINK") = lowerStr ("pink") ∧
    (lowerStr ("neon") ≠ "pink" ∧ lowerStr ("neon") ≠ "purple" ∧
      lowerStr ("neon") ≠ "blue" ∧ lowerStr ("neon") ≠ "black") ∧
    (lowerStr ("neon") ≠ "constructor" ∧ lowerStr ("neon") ≠ "__proto__") ∧
    (resolveTheme (some ("PINK")) = resolveTheme (some ("pink")) ∧
      resolveTheme none = ThemeVal.themeRec pinkTheme ∧
      resolveTheme (some ("neon")) = ThemeVal.themeRec pinkTheme ∧
      (∀ u : String, (lowerStr u = "constructor" ∨ lowerStr u = "__proto__") →
        applyTheme (resolveTheme (some u))
          = Except.error ("Unexpected error in app.js."))) :=
  ⟨by decide, by decide, by decide,
    theme_resolution_amended ("PINK") ("pink") ("neon")
      (by decide) (by decide) (by decide)⟩

theorem pdfAddImage_append (pre : List (List Nat)) (last : List Nat) (img : Nat) :
    pdfAddImage (pre ++ [last]) img = pre ++ [last ++ [img]] := by
  induction pre with
  | nil => rfl
  | cons pg rest ih =>
      cases rest with
      | nil => rfl
      | cons a t =>
          show pg :: pdfAddImage ((a :: t) ++ [last]) img = _
          rw [ih]
          rfl

theorem exportGo_zero (len : Nat) (c : Option Nat) (i : Nat)
    (doc : List (List Nat)) : exportGo len c 0 i doc = doc := rfl

theorem exportGo_succ (len : Nat) (c : Option Nat) (rem i : Nat)
    (doc : List (List Nat)) :
    exportGo len c (rem + 1) i doc
      = if cancelSeen c i then doc
        else exportGo len c rem (i + 1)
          (if i < len - 1 then pdfAddPage (pdfAddImage doc i)
           else pdfAddImage doc i) := rfl

theorem exportGo_no_cancel (len : Nat) :
    ∀ (rem i : Nat) (pre : List (List Nat)), 1 ≤ rem → i + rem = len →
      exportGo len none rem i (pre ++ [[]])
        = pre ++ (List.range' i rem).map (fun j => [j]) := by
  intro rem
  induction rem with
  | zero => intro i pre h _; omega
  | succ r ih =>
      intro i pre _ hsum
      have hstep : pdfAddImage (pre ++ [[]]) i = pre ++ [[i]] := by
        simpa using pdfAddImage_append pre [] i
      rw [exportGo_succ, if_neg (by simp [cancelSeen]), hstep]
      cases r with
      | zero =>
          have hlast : ¬ i < len - 1 := by omega
          rw [if_neg hlast, exportGo_zero, List.range'_succ]
          simp [List.range']
      | succ r' =>
          have hmid : i < len - 1 := by omega
          rw [if_pos hmid,
            show pdfAddPage (pre ++ [[i]]) = (pre ++ [[i]]) ++ [[]] from rfl,
            ih (i + 1) (pre ++ [[i]]) (by omega) (by omega),
            List.range'_succ]
          simp [List.range'_succ]

theorem exportGo_cancel (len k : Nat) (hk : k < len) :
    ∀ (rem i : Nat) (pre : List (List Nat)), i + rem = len → i ≤ k →
      exportGo len (some k) rem i (pre ++ [[]])
        = pre ++ (List.range' i (k - i)).map (fun j => [j]) ++ [[]] := by
  intro rem
  induction rem with
  | zero => intro i pre hsum hik; omega
  | succ r ih =>
      intro i pre hsum hik
      by_cases hci : k ≤ i
      · have hseen : cancelSeen (some k) i = true := by
          simp [cancelSeen, hci]
        have hii : k - i = 0 := by omega
        rw [exportGo_succ, if_pos hseen, hii]
        simp [List.range']
      · have hlt : i < k := by omega
        have hseen : ¬ (cancelSeen (some k) i = true) := by
          simp [cancelSeen]
          omega
        have hstep : pdfAddImage (pre ++ [[]]) i = pre ++ [[i]] := by
          simpa using pdfAddImage_append pre [] i
        have hmid : i < len - 1 := by omega
        rw [exportGo_succ, if_neg hseen, hstep, if_pos hmid,
          show pdfAddPage (pre ++ [[i]]) = (pre ++ [[i]]) ++ [[]] from rfl,
          ih (i + 1) (pre ++ [[i]]) (by omega) (by omega)]
        have hki : k - i = (k - (i + 1)) + 1 := by omega
        rw [hki, List.range'_succ]
        simp

/-- Claim C6: An export of an `N`-slide deck that runs to completion without
cancellation produces a document with exactly `N` pages, one image per
slide in ascending slide order, and saves it under the deck title plus
`".pdf"` (or `"presentation.pdf"` when the title is absent). -/
theorem export_complete_pages_and_save (N : Nat) (title : Option String)
    (h : 1 ≤ N) :
    (exportToPdf N title none).doc = (List.range N).map (fun j => [j]) ∧
    (title = none →
      (exportToPdf N title none).saved = some ("presentation.pdf")) ∧
    (∀ t, title = some t → t ≠ "" →
      (exportToPdf N title none).saved = some (t ++ ".pdf")) := by
  refine ⟨?_, ?_, ?_⟩
  · show exportGo N none N 0 [[]] = _
    have hx := exportGo_no_cancel N N 0 [] h (by omega)
    simpa [List.range_eq_range'] using hx
  · rintro rfl
    simp [exportToPdf, jsOr]
  · rintro t rfl ht
    simp [exportToPdf, jsOr, ht]

theorem export_complete_pages_and_save_witness :
    1 ≤ 2 ∧
    ((exportToPdf 2 (some ("Deck")) none).doc
        = (List.range 2).map (fun j => [j]) ∧
      ((some ("Deck") : Option String) = none →
        (exportToPdf 2 (some ("Deck")) none).saved = some ("presentation.pdf")) ∧
      (∀ t, (some ("Deck") : Option String) = some t → t ≠ "" →
        (exportToPdf 2 (some ("Deck")) none).saved = some (t ++ ".pdf"))) :=
  ⟨by norm_num, export_complete_pages_and_save 2 (some ("Deck")) (by norm_num)⟩

/-- Claim C7: If the cancellation flag is set before the export loop reaches
slide index `k` (`1 ≤ k < N`), the pipeline stops without processing slide
`k` or any later slide — the document holds exactly the images of slides
`0..k-1`, in order, plus the blank page added at the end of iteration
`k-1` — and the save step is skipped entirely; the cancel operation itself
only sets the flag, hides the overlay and clears the exporting visual
state, leaving an in-flight rasterization untouched. -/
theorem export_cancel_stops_and_skips_save (N k : Nat) (title : Option String)
    (hk1 : 1 ≤ k) (hk2 : k < N) :
    (exportToPdf N title (some k)).doc
      = (List.range k).map (fun j => [j]) ++ [[]] ∧
    (exportToPdf N title (some k)).saved = none ∧
    (∀ s : PageState, cancelExportClick s
      = { cancelRequested := true, overlayHidden := true, exporting := false,
          rasterInFlight := s.rasterInFlight }) := by
  refine ⟨?_, by simp [exportToPdf], fun s => rfl⟩
  show exportGo N (some k) N 0 [[]] = _
  have hx := exportGo_cancel N k hk2 N 0 [] (by omega) (by omega)
  simpa [List.range_eq_range'] using hx

theorem export_cancel_stops_and_skips_save_witness :
    1 ≤ 1 ∧ 1 < 3 ∧
    ((exportToPdf 3 none (some 1)).doc
        = (List.range 1).map (fun j => [j]) ++ [[]] ∧
      (exportToPdf 3 none (some 1)).saved = none ∧
      (∀ s : PageState, cancelExportClick s
        = { cancelRequested := true, overlayHidden := true, exporting := false,
            rasterInFlight := s.rasterInFlight })) :=
  ⟨le_refl 1, by norm_num,
    export_cancel_stops_and_skips_save 3 1 none (le_refl 1) (by norm_num)⟩

end FlowPitch
